import Mathlib

/-!
Verification of the `k8s_manifest` Terraform provider adapter (`main.go`).

Go strings are modelled as `List Char` (one `Char` per byte; all strings
involved are ASCII).  Subprocess execution (`exec.Cmd` + `run`), temporary
file creation (`ioutil.TempFile`) and JSON unmarshalling (`json.Unmarshal`)
are external effects; they are modelled as oracle fields of an `Env`
record, and each lifecycle operation additionally returns the ordered
trace of kubectl invocations it performed.  Everything else —
`strings.Split`, `strings.Join`, `strings.TrimSpace`, `url.PathUnescape`,
`resourceFromSelflink`, `kubeconfigPath`, `kubectl` argument construction
and the four CRUD functions — is translated directly from the source.
-/

namespace K8sProvider

abbrev Str := List Char

/-- Model of Go `strings.Split(s, sep)` for a one-character separator:
splits around every occurrence of `sep`; the empty string yields `[""]`. -/
def goSplit (sep : Char) : Str → List Str
  | [] => [[]]
  | c :: cs =>
    match goSplit sep cs with
    | [] => [[]]
    | h :: t => if c = sep then [] :: h :: t else (c :: h) :: t

/-- Model of Go `strings.Join(elems, sep)` for a one-character separator. -/
def goJoin (sep : Char) : List Str → Str
  | [] => []
  | [x] => x
  | x :: rest => x ++ sep :: goJoin sep rest

/-- Go `unicode.IsSpace` (White_Space property). -/
def isGoSpace (c : Char) : Bool :=
  c = ' ' ∨ c = '\t' ∨ c = '\n' ∨ c.toNat = 0x0B ∨ c.toNat = 0x0C ∨
  c = '\r' ∨ c.toNat = 0x85 ∨ c.toNat = 0xA0 ∨ c.toNat = 0x1680 ∨
  (0x2000 ≤ c.toNat ∧ c.toNat ≤ 0x200A) ∨ c.toNat = 0x2028 ∨
  c.toNat = 0x2029 ∨ c.toNat = 0x202F ∨ c.toNat = 0x205F ∨ c.toNat = 0x3000

/-- Model of Go `strings.TrimSpace`: drop leading and trailing whitespace. -/
def goTrimSpace (s : Str) : Str :=
  ((s.dropWhile isGoSpace).reverse.dropWhile isGoSpace).reverse

/-- Go `ishex` from `net/url`. -/
def ishex (c : Char) : Bool :=
  ('0' ≤ c ∧ c ≤ '9') ∨ ('a' ≤ c ∧ c ≤ 'f') ∨ ('A' ≤ c ∧ c ≤ 'F')

/-- Go `unhex` from `net/url`. -/
def unhex (c : Char) : Nat :=
  if '0' ≤ c ∧ c ≤ '9' then c.toNat - '0'.toNat
  else if 'a' ≤ c ∧ c ≤ 'f' then c.toNat - 'a'.toNat + 10
  else if 'A' ≤ c ∧ c ≤ 'F' then c.toNat - 'A'.toNat + 10
  else 0

/-- Success/failure core of Go `url.PathUnescape`: every `%` must be
followed by two hex digits and is replaced by the escaped byte; any
malformed escape is an error (`none`). -/
def pathUnescapeCore : Str → Option Str
  | [] => some []
  | '%' :: c1 :: c2 :: rest =>
    if ishex c1 ∧ ishex c2 then
      (pathUnescapeCore rest).map (Char.ofNat (16 * unhex c1 + unhex c2) :: ·)
    else none
  | '%' :: _ => none
  | c :: rest => (pathUnescapeCore rest).map (c :: ·)

/-- Go `url.PathUnescape` returns the pair (value, error-flag); on a
malformed escape it returns the empty string together with the error. -/
def goPathUnescape (s : Str) : Str × Bool :=
  match pathUnescapeCore s with
  | some r => (r, false)
  | none => ([], true)

/-- The namespace-extraction loop of `resourceFromSelflink`: the first part
equal to `"namespaces"` that has a following part yields that following
part; otherwise the namespace stays empty. -/
def namespaceFromParts : List Str → Str
  | [] => []
  | [_] => []
  | p :: q :: rest =>
    if p = "namespaces".data then q else namespaceFromParts (q :: rest)

/-- `resourceFromSelflink` from `main.go`: split on `/`, require at least
two parts, take the last two parts as `kind/name`, extract the namespace,
then percent-decode the `kind/name` (decode failure clears the value and
reports `ok = false`, matching `url.PathUnescape` returning `""`). -/
def resourceFromSelflink (s : Str) : Str × Str × Bool :=
  let parts := goSplit '/' s
  if parts.length < 2 then ([], [], false)
  else
    let resource := parts.dropLast.getLastD [] ++ '/' :: parts.getLastD []
    let ns := namespaceFromParts parts
    match goPathUnescape resource with
    | (resource, true) => (resource, ns, false)
    | (resource, false) => (resource, ns, true)

/-- Go error values produced by the adapter: plain `fmt.Errorf` messages
and the `errorList` aggregate. -/
inductive GoError where
  | msg : Str → GoError
  | list : List GoError → GoError

mutual

/-- Rendering of an error as by Go `%v`: an `errorList` prints as the
bracketed, space-separated rendering of its members. -/
def goErrString : GoError → Str
  | .msg s => s
  | .list es => '[' :: goJoin ' ' (goErrStrings es) ++ [']']

def goErrStrings : List GoError → List Str
  | [] => []
  | e :: rest => goErrString e :: goErrStrings rest

end

/-- Provider configuration (`config` struct). -/
structure Config where
  kubeconfig : Str
  kubeconfigContent : Str
  kubeconfigContext : Str

/-- Terraform resource data visible to this adapter: the stored identity
(`d.Id()` / `d.SetId`) and the `content` attribute. -/
structure ResourceData where
  id : Str
  content : Str
deriving DecidableEq

/-- One kubectl subprocess invocation: its argument list (after the
`kubectl` command name) and the stdin contents, when piped. -/
structure Call where
  args : List Str
  stdin : Option Str
deriving DecidableEq

/-- Outcome of the `ioutil.TempFile` / write / close sequence used when
`kubeconfig_content` is materialized. -/
inductive TmpOutcome where
  | ok : Str → TmpOutcome
  | createErr : Str → TmpOutcome
  | writeErr : Str → TmpOutcome
  | closeErr : Str → TmpOutcome

/-- External world: the result of running a kubectl command (`run`; error
or captured stdout), the result of `json.Unmarshal` into the
`{items: [{metadata: {selflink}}]}` shape (error or the items' self-link
fields), and the temp-file outcome. -/
structure Env where
  exec : Call → Except GoError Str
  unmarshalItems : Str → Except Str (List Str)
  tmp : TmpOutcome

/-- The conflict message from `kubeconfigPath` (typo as in the source). -/
def conflictMsg : Str :=
  "both kubeconfig and kubeconfig_content are defined, please use only one of the paramters".data

/-- `kubeconfigPath` from `main.go`: both sources set is an error;
inline content is materialized to a temp file; otherwise the configured
path (possibly empty) is used as is.  Cleanup is a filesystem effect with
no bearing on the returned values and is not modelled. -/
def kubeconfigPath (cfg : Config) (tmp : TmpOutcome) : Except GoError Str :=
  if cfg.kubeconfig ≠ [] ∧ cfg.kubeconfigContent ≠ [] then
    .error (.msg conflictMsg)
  else if cfg.kubeconfigContent ≠ [] then
    match tmp with
    | .ok p => .ok p
    | .createErr e => .error (.msg ("creating a kubeconfig file: ".data ++ e))
    | .writeErr e => .error (.msg ("writing kubeconfig to file: ".data ++ e))
    | .closeErr e => .error (.msg ("completion of write to kubeconfig file: ".data ++ e))
  else
    .ok cfg.kubeconfig

/-- Argument construction of `kubectl` in `main.go`: the kubeconfig flag
pair is prepended first, then the context flag pair is prepended in front
of it, so a configured `--context` ends up before `--kubeconfig`. -/
def kubectlArgs (cfg : Config) (kubeconfig : Str) (args : List Str) : List Str :=
  let args := if kubeconfig ≠ [] then "--kubeconfig".data :: kubeconfig :: args else args
  if cfg.kubeconfigContext ≠ [] then
    "--context".data :: cfg.kubeconfigContext :: args
  else args

/-- The wrap `fmt.Errorf("determining kubeconfig: %v", err)` used by every
caller of `kubeconfigPath`. -/
def wrapKubeconfigErr (e : GoError) : GoError :=
  .msg ("determining kubeconfig: ".data ++ goErrString e)

/-- The self-link collection loop of `resourceManifestCreate`: an item
with an empty self-link aborts with an error naming the raw response. -/
def collectSelflinks : List Str → Str → Except GoError (List Str)
  | [], _ => .ok []
  | l :: rest, out =>
    if l = [] then
      .error (.msg ("could not parse self-link from response ".data ++ out))
    else
      (collectSelflinks rest out).map (l :: ·)

/-- `resourceManifestCreate`: resolve kubeconfig, `kubectl apply -f -`,
`kubectl get -f - -o json`, unmarshal, reject empty item lists and empty
self-links, and only then set the identity to the joined self-links.
Returns (result, final resource data, trace of kubectl calls). -/
def resourceManifestCreate (cfg : Config) (env : Env) (d : ResourceData) :
    Except GoError Unit × ResourceData × List Call :=
  match kubeconfigPath cfg env.tmp with
  | .error e => (.error (wrapKubeconfigErr e), d, [])
  | .ok kc =>
    let applyCall : Call :=
      ⟨kubectlArgs cfg kc ["apply".data, "-f".data, "-".data], some d.content⟩
    match env.exec applyCall with
    | .error e => (.error e, d, [applyCall])
    | .ok _ =>
      let getCall : Call :=
        ⟨kubectlArgs cfg kc ["get".data, "-f".data, "-".data, "-o".data, "json".data],
         some d.content⟩
      match env.exec getCall with
      | .error e => (.error e, d, [applyCall, getCall])
      | .ok stdout =>
        match env.unmarshalItems stdout with
        | .error e =>
          (.error (.msg ("decoding response: ".data ++ e)), d, [applyCall, getCall])
        | .ok items =>
          if items.length = 0 then
            (.error (.msg "no resources created".data), d, [applyCall, getCall])
          else
            match collectSelflinks items stdout with
            | .error e => (.error e, d, [applyCall, getCall])
            | .ok selflinks =>
              (.ok (), { d with id := goJoin ' ' selflinks }, [applyCall, getCall])

/-- `resourceManifestUpdate`: resolve kubeconfig and re-apply the
manifest; the stored identity is never touched. -/
def resourceManifestUpdate (cfg : Config) (env : Env) (d : ResourceData) :
    Except GoError Unit × ResourceData × List Call :=
  match kubeconfigPath cfg env.tmp with
  | .error e => (.error (wrapKubeconfigErr e), d, [])
  | .ok kc =>
    let applyCall : Call :=
      ⟨kubectlArgs cfg kc ["apply".data, "-f".data, "-".data], some d.content⟩
    match env.exec applyCall with
    | .error e => (.error e, d, [applyCall])
    | .ok _ => (.ok (), d, [applyCall])

/-- `deleteResource`: decode the self-link, build
`delete <kind/name> [-n ns]`, resolve kubeconfig and run.  Returns the
error, if any, and the trace. -/
def deleteResource (cfg : Config) (env : Env) (selflink : Str) :
    Option GoError × List Call :=
  match resourceFromSelflink selflink with
  | (_, _, false) => (some (.msg ("invalid resource id: ".data ++ selflink)), [])
  | (resource, ns, true) =>
    let args :=
      if ns ≠ [] then ["delete".data, resource, "-n".data, ns]
      else ["delete".data, resource]
    match kubeconfigPath cfg env.tmp with
    | .error e => (some (wrapKubeconfigErr e), [])
    | .ok kc =>
      let c : Call := ⟨kubectlArgs cfg kc args, none⟩
      match env.exec c with
      | .error e => (some e, [c])
      | .ok _ => (none, [c])

/-- The downward loop of `resourceManifestDelete`, expressed on the list
of locators already put in processing order. -/
def deleteSeq (cfg : Config) (env : Env) : List Str → List GoError × List Call
  | [] => ([], [])
  | r :: rest =>
    let (e, tr) := deleteResource cfg env r
    let (errs, trs) := deleteSeq cfg env rest
    (match e with | some err => err :: errs | none => errs, tr ++ trs)

/-- `resourceManifestDelete`: split the stored identity, attempt deletion
of each locator from the last to the first, and aggregate the failures. -/
def resourceManifestDelete (cfg : Config) (env : Env) (d : ResourceData) :
    Except GoError Unit × List Call :=
  let (errs, tr) := deleteSeq cfg env (goSplit ' ' d.id).reverse
  (match errs with
   | [] => .ok ()
   | e :: rest => .error (.list (e :: rest)), tr)

/-- Per-locator core of `readResource`: the Go function interacts with the
resource data only through a possible `d.SetId("")`, recorded here as the
middle boolean (true when the trimmed get-output was empty). -/
def readResourceCore (cfg : Config) (env : Env) (selflink : Str) :
    Option GoError × Bool × List Call :=
  match resourceFromSelflink selflink with
  | (_, _, false) => (some (.msg ("invalid resource id: ".data ++ selflink)), false, [])
  | (resource, ns, true) =>
    let args :=
      if ns ≠ [] then ["get".data, "--ignore-not-found".data, resource, "-n".data, ns]
      else ["get".data, "--ignore-not-found".data, resource]
    match kubeconfigPath cfg env.tmp with
    | .error e => (some (wrapKubeconfigErr e), false, [])
    | .ok kc =>
      let c : Call := ⟨kubectlArgs cfg kc args, none⟩
      match env.exec c with
      | .error e => (some e, false, [c])
      | .ok stdout => (none, goTrimSpace stdout = [], [c])

/-- `readResource` from `main.go`, applying the core's identity-clearing
effect to the resource data. -/
def readResource (cfg : Config) (env : Env) (d : ResourceData) (selflink : Str) :
    Option GoError × ResourceData × List Call :=
  match readResourceCore cfg env selflink with
  | (e, cleared, tr) => (e, if cleared then { d with id := [] } else d, tr)

/-- The locator loop of `resourceManifestRead`, threading the resource
data and collecting per-locator errors and traces in order. -/
def readLoop (cfg : Config) (env : Env) : List Str → ResourceData →
    List GoError × ResourceData × List Call
  | [], d => ([], d, [])
  | l :: rest, d =>
    let (e, d', tr) := readResource cfg env d l
    let (errs, d'', trs) := readLoop cfg env rest d'
    (match e with | some err => err :: errs | none => errs, d'', tr ++ trs)

/-- `resourceManifestRead`: split the stored identity once, run the
get-query for every locator, aggregate the errors. -/
def resourceManifestRead (cfg : Config) (env : Env) (d : ResourceData) :
    Except GoError Unit × ResourceData × List Call :=
  let (errs, d', tr) := readLoop cfg env (goSplit ' ' d.id) d
  (match errs with
   | [] => .ok ()
   | e :: rest => .error (.list (e :: rest)), d', tr)

/-- The error each locator contributes during read/delete when the
kubeconfig configuration is conflicting: a decodable id reaches (and
fails) credential resolution, an undecodable id fails earlier. -/
def conflictLocErr (l : Str) : GoError :=
  if (resourceFromSelflink l).2.2 then wrapKubeconfigErr (.msg conflictMsg)
  else .msg ("invalid resource id: ".data ++ l)

/-- Provider configuration with no field set. -/
def emptyCfg : Config := ⟨[], [], []⟩

/-- Provider configuration with only a context set. -/
def ctxCfg : Config := ⟨[], [], "ctx".data⟩

/-- Provider configuration with both a kubeconfig path and inline
content (the conflicting combination). -/
def conflictCfg : Config := ⟨"/kc".data, "inline".data, []⟩

/-- An environment whose subprocesses all succeed with empty output. -/
def plainEnv : Env := ⟨fun _ => .ok [], fun _ => .ok [], .ok []⟩

/-- An environment where every command prints `x` and the structured get
parses to an empty items list. -/
def emptyItemsEnv : Env := ⟨fun _ => .ok "x".data, fun _ => .ok [], .ok []⟩

/-- An environment where the get-query for `a/b` prints nothing and every
other command prints `x`. -/
def readEnv : Env :=
  ⟨fun c =>
    if c.args = ["get".data, "--ignore-not-found".data, "a/b".data] then .ok []
    else .ok "x".data,
   fun _ => .ok [], .ok []⟩

/-- An environment where deleting `pods/b` in namespace `ns` fails and
every other command succeeds. -/
def delEnv : Env :=
  ⟨fun c =>
    if c.args = ["delete".data, "pods/b".data, "-n".data, "ns".data] then
      .error (.msg "boom".data)
    else .ok [],
   fun _ => .ok [], .ok []⟩

/-- Resource data holding the composite id `a/b c/d`. -/
def readD : ResourceData := ⟨"a/b c/d".data, []⟩

/-- Resource data holding two self-links for pods `a` and `b`. -/
def delD : ResourceData :=
  ⟨"v1/namespaces/ns/pods/a v1/namespaces/ns/pods/b".data, []⟩

/-- Resource data with an undecodable (single-segment) stored id. -/
def shortD : ResourceData := ⟨"short".data, []⟩

/-- Resource data with an empty id and some manifest content. -/
def freshD : ResourceData := ⟨[], "manifest".data⟩

/-- Two delimiter-free self-links used to witness the round-trip. -/
def sampleLinks : List Str :=
  ["apps/v1/namespaces/foo/deployments/bar".data,
   "v1/namespaces/foo/services/svc".data]

theorem goSplit_ne_nil (sep : Char) (s : Str) : goSplit sep s ≠ [] := by
  cases s with
  | nil => simp [goSplit]
  | cons c cs =>
    simp only [goSplit]
    cases goSplit sep cs with
    | nil => simp
    | cons h t =>
      by_cases hc : c = sep <;> simp [hc]

theorem goSplit_no_sep (sep : Char) (l : Str) (h : sep ∉ l) :
    goSplit sep l = [l] := by
  induction l with
  | nil => rfl
  | cons c cs ih =>
    have hc : c ≠ sep := fun hcs => h (hcs ▸ List.mem_cons_self c cs)
    have hcs : sep ∉ cs := fun hm => h (List.mem_cons_of_mem c hm)
    simp [goSplit, ih hcs, hc]

theorem goSplit_append_sep (sep : Char) (l rest : Str) (h : sep ∉ l) :
    goSplit sep (l ++ sep :: rest) = l :: goSplit sep rest := by
  induction l with
  | nil =>
    obtain ⟨h₀, t₀, heq⟩ : ∃ h₀ t₀, goSplit sep rest = h₀ :: t₀ := by
      cases hg : goSplit sep rest with
      | nil => exact absurd hg (goSplit_ne_nil sep rest)
      | cons a b => exact ⟨a, b, rfl⟩
    simp [goSplit, heq]
  | cons c cs ih =>
    have hc : c ≠ sep := fun hcs => h (hcs ▸ List.mem_cons_self c cs)
    have hcs : sep ∉ cs := fun hm => h (List.mem_cons_of_mem c hm)
    simp [goSplit, ih hcs, hc]

theorem goSplit_goJoin (sep : Char) (S : List Str) (hne : S ≠ [])
    (h : ∀ x ∈ S, sep ∉ x) : goSplit sep (goJoin sep S) = S := by
  induction S with
  | nil => exact absurd rfl hne
  | cons x rest ih =>
    cases rest with
    | nil =>
      simpa [goJoin] using goSplit_no_sep sep x (h x (List.mem_cons_self x []))
    | cons y rest' =>
      have hx : sep ∉ x := h x (List.mem_cons_self x (y :: rest'))
      have hrest : ∀ z ∈ y :: rest', sep ∉ z :=
        fun z hz => h z (List.mem_cons_of_mem x hz)
      have hjoin : goJoin sep (x :: y :: rest') = x ++ sep :: goJoin sep (y :: rest') := rfl
      rw [hjoin, goSplit_append_sep sep x _ hx, ih (by simp) hrest]

theorem namespaceFromParts_firstNs (pre : List Str) (x : Str) (rest : List Str)
    (h : "namespaces".data ∉ pre) :
    namespaceFromParts (pre ++ "namespaces".data :: x :: rest) = x := by
  induction pre with
  | nil => simp [namespaceFromParts]
  | cons p pre' ih =>
    have hp : p ≠ "namespaces".data := fun he => h (he ▸ List.mem_cons_self p pre')
    have h' : "namespaces".data ∉ pre' := fun hm => h (List.mem_cons_of_mem p hm)
    rcases hsh : pre' ++ "namespaces".data :: x :: rest with _ | ⟨q, tail⟩
    · exact absurd hsh (by simp)
    · rw [List.cons_append, hsh]
      simp only [namespaceFromParts, if_neg hp]
      rw [← hsh]
      exact ih h'

theorem namespaceFromParts_lastNs (pre : List Str)
    (h : "namespaces".data ∉ pre) :
    namespaceFromParts (pre ++ ["namespaces".data]) = [] := by
  induction pre with
  | nil => rfl
  | cons p pre' ih =>
    have hp : p ≠ "namespaces".data := fun he => h (he ▸ List.mem_cons_self p pre')
    have h' : "namespaces".data ∉ pre' := fun hm => h (List.mem_cons_of_mem p hm)
    rcases hsh : pre' ++ ["namespaces".data] with _ | ⟨q, tail⟩
    · exact absurd hsh (by simp)
    · rw [List.cons_append, hsh]
      simp only [namespaceFromParts, if_neg hp]
      rw [← hsh]
      exact ih h'

theorem resourceFromSelflink_ns (s : Str) (h : ¬ (goSplit '/' s).length < 2) :
    (resourceFromSelflink s).2.1 = namespaceFromParts (goSplit '/' s) := by
  simp only [resourceFromSelflink]
  rw [if_neg h]
  rcases hgp : goPathUnescape
      ((goSplit '/' s).dropLast.getLastD [] ++ '/' :: (goSplit '/' s).getLastD []) with ⟨r, b⟩
  cases b <;> simp [hgp]

theorem deleteSeq_spec (cfg : Config) (env : Env) (ls : List Str) :
    deleteSeq cfg env ls =
      (ls.filterMap fun r => (deleteResource cfg env r).1,
       (ls.map fun r => (deleteResource cfg env r).2).flatten) := by
  induction ls with
  | nil => simp [deleteSeq]
  | cons r rest ih =>
    simp only [deleteSeq]
    rcases hr : deleteResource cfg env r with ⟨e, tr⟩
    rw [ih]
    cases e <;> simp [hr]

theorem readLoop_spec (cfg : Config) (env : Env) (ls : List Str) (d : ResourceData) :
    readLoop cfg env ls d =
      (ls.filterMap fun l => (readResourceCore cfg env l).1,
       ⟨if ls.any (fun l => (readResourceCore cfg env l).2.1) then [] else d.id, d.content⟩,
       (ls.map fun l => (readResourceCore cfg env l).2.2).flatten) := by
  induction ls generalizing d with
  | nil => simp [readLoop]
  | cons l rest ih =>
    simp only [readLoop, readResource]
    rcases hcore : readResourceCore cfg env l with ⟨e, cleared, tr⟩
    rw [ih]
    cases cleared <;> cases e <;> simp [hcore]

theorem kubeconfigPath_conflict (cfg : Config) (tmp : TmpOutcome)
    (hk : cfg.kubeconfig ≠ []) (hc : cfg.kubeconfigContent ≠ []) :
    kubeconfigPath cfg tmp = .error (.msg conflictMsg) := by
  unfold kubeconfigPath
  rw [if_pos ⟨hk, hc⟩]

theorem readResourceCore_conflict (cfg : Config) (env : Env) (l : Str)
    (hk : cfg.kubeconfig ≠ []) (hc : cfg.kubeconfigContent ≠ []) :
    readResourceCore cfg env l = (some (conflictLocErr l), false, []) := by
  unfold readResourceCore conflictLocErr
  rcases h : resourceFromSelflink l with ⟨r, ns, b⟩
  cases b
  · simp [h]
  · simp [h, kubeconfigPath_conflict cfg env.tmp hk hc]

theorem deleteResource_conflict (cfg : Config) (env : Env) (l : Str)
    (hk : cfg.kubeconfig ≠ []) (hc : cfg.kubeconfigContent ≠ []) :
    deleteResource cfg env l = (some (conflictLocErr l), []) := by
  unfold deleteResource conflictLocErr
  rcases h : resourceFromSelflink l with ⟨r, ns, b⟩
  cases b
  · simp [h]
  · simp [h, kubeconfigPath_conflict cfg env.tmp hk hc]

theorem readLoop_conflict (cfg : Config) (env : Env)
    (hk : cfg.kubeconfig ≠ []) (hc : cfg.kubeconfigContent ≠ []) :
    ∀ (ls : List Str) (d : ResourceData),
      readLoop cfg env ls d = (ls.map conflictLocErr, d, []) := by
  intro ls
  induction ls with
  | nil => intro d; rfl
  | cons l rest ih =>
    intro d
    simp [readLoop, readResource, readResourceCore_conflict cfg env l hk hc, ih]

theorem deleteSeq_conflict (cfg : Config) (env : Env)
    (hk : cfg.kubeconfig ≠ []) (hc : cfg.kubeconfigContent ≠ []) :
    ∀ ls : List Str, deleteSeq cfg env ls = (ls.map conflictLocErr, []) := by
  intro ls
  induction ls with
  | nil => rfl
  | cons l rest ih =>
    simp only [deleteSeq, deleteResource_conflict cfg env l hk hc]
    rw [ih]
    simp

theorem create_id_or_ok (cfg : Config) (env : Env) (d : ResourceData) :
    (resourceManifestCreate cfg env d).2.1 = d ∨
    (resourceManifestCreate cfg env d).1 = .ok () := by
  unfold resourceManifestCreate
  dsimp only
  repeat' split
  all_goals first | (left; rfl) | (right; rfl)

/-- C1: for every non-empty sequence of self-link strings (none containing
the single-space delimiter), splitting the delimiter-join recovers exactly
the sequence, and decoding the segments of the joined CompositeID agrees
with decoding each element independently. -/
theorem compositeID_roundtrip (S : List Str) (hne : S ≠ [])
    (h : ∀ x ∈ S, ' ' ∉ x) :
    goSplit ' ' (goJoin ' ' S) = S ∧
    (goSplit ' ' (goJoin ' ' S)).map resourceFromSelflink =
      S.map resourceFromSelflink := by
  have hs := goSplit_goJoin ' ' S hne h
  exact ⟨hs, by rw [hs]⟩

/-- Witness for C1 at two concrete self-links. -/
theorem compositeID_roundtrip_witness :
    goSplit ' ' (goJoin ' ' sampleLinks) = sampleLinks ∧
    (goSplit ' ' (goJoin ' ' sampleLinks)).map resourceFromSelflink =
      sampleLinks.map resourceFromSelflink :=
  compositeID_roundtrip sampleLinks (by decide) (by decide)

/-- C2: if any locator of the stored CompositeID gets an empty (after
trimming) query output, Read leaves the identity cleared, and the result
is the aggregate of exactly the per-locator errors, collected after every
locator was attempted (the trace is the concatenation of all per-locator
traces). -/
theorem read_empty_output_clears_identity (cfg : Config) (env : Env)
    (d : ResourceData)
    (h : ∃ l ∈ goSplit ' ' d.id, (readResourceCore cfg env l).2.1 = true) :
    (resourceManifestRead cfg env d).2.1.id = [] ∧
    (resourceManifestRead cfg env d).1 =
      (match (goSplit ' ' d.id).filterMap (fun l => (readResourceCore cfg env l).1) with
       | [] => .ok ()
       | e :: rest => .error (.list (e :: rest))) ∧
    (resourceManifestRead cfg env d).2.2 =
      ((goSplit ' ' d.id).map (fun l => (readResourceCore cfg env l).2.2)).flatten := by
  have hany : (goSplit ' ' d.id).any (fun l => (readResourceCore cfg env l).2.1) = true := by
    rcases h with ⟨l, hl, hb⟩
    exact List.any_eq_true.mpr ⟨l, hl, hb⟩
  unfold resourceManifestRead
  rw [readLoop_spec]
  simp [hany]

/-- Witness for C2: two locators, the first queried object reports empty
output, the other reports `x`; the identity ends cleared and no error is
returned. -/
theorem read_empty_output_clears_identity_witness :
    (resourceManifestRead emptyCfg readEnv readD).2.1.id = [] ∧
    (resourceManifestRead emptyCfg readEnv readD).1 =
      (match (goSplit ' ' readD.id).filterMap
          (fun l => (readResourceCore emptyCfg readEnv l).1) with
       | [] => .ok ()
       | e :: rest => .error (.list (e :: rest))) ∧
    (resourceManifestRead emptyCfg readEnv readD).2.2 =
      ((goSplit ' ' readD.id).map
        (fun l => (readResourceCore emptyCfg readEnv l).2.2)).flatten :=
  read_empty_output_clears_identity emptyCfg readEnv readD
    ⟨"a/b".data, by decide, by rfl⟩

/-- C3: Delete processes the locators of the stored CompositeID in reverse
order, attempts every one of them, and aggregates exactly the errors of
the failing locators; concretely, for `linkA linkB` with only `linkB`
failing, both deletions are attempted, `linkB` first, and the aggregate
contains exactly the `linkB` failure. -/
theorem delete_reverse_best_effort :
    (∀ (cfg : Config) (env : Env) (d : ResourceData),
      resourceManifestDelete cfg env d =
        (match (goSplit ' ' d.id).reverse.filterMap
            (fun r => (deleteResource cfg env r).1) with
         | [] => .ok ()
         | e :: rest => .error (.list (e :: rest)),
         ((goSplit ' ' d.id).reverse.map (fun r => (deleteResource cfg env r).2)).flatten)) ∧
    resourceManifestDelete emptyCfg delEnv delD =
      (.error (.list [.msg "boom".data]),
       [⟨["delete".data, "pods/b".data, "-n".data, "ns".data], none⟩,
        ⟨["delete".data, "pods/a".data, "-n".data, "ns".data], none⟩]) := by
  constructor
  · intro cfg env d
    unfold resourceManifestDelete
    rw [deleteSeq_spec]
  · rfl

/-- C4 counterexample: on the self-link `a/b%zz` the kind/name segment
fails percent-decoding, yet `resourceFromSelflink` does not return the
undecoded segment: it returns the empty string (with `ok = false`), as
`url.PathUnescape` yields `""` on error. -/
theorem selflink_bad_escape_cex :
    pathUnescapeCore "a/b%zz".data = none ∧
    resourceFromSelflink "a/b%zz".data = ([], [], false) ∧
    (resourceFromSelflink "a/b%zz".data).1 ≠ "a/b%zz".data := by decide

/-- C4 (amended): for every self-link whose kind/name segment fails
percent-decoding, `resourceFromSelflink` returns the empty string as the
resource together with the extracted namespace and `ok = false`. -/
theorem selflink_bad_escape (s : Str) (h2 : ¬ (goSplit '/' s).length < 2)
    (hfail : pathUnescapeCore
      ((goSplit '/' s).dropLast.getLastD [] ++ '/' :: (goSplit '/' s).getLastD []) = none) :
    resourceFromSelflink s = ([], namespaceFromParts (goSplit '/' s), false) := by
  simp only [resourceFromSelflink]
  rw [if_neg h2]
  simp only [goPathUnescape, hfail]

/-- Witness for C4 (amended) at `a/b%zz`. -/
theorem selflink_bad_escape_witness :
    resourceFromSelflink "a/b%zz".data =
      ([], namespaceFromParts (goSplit '/' "a/b%zz".data), false) :=
  selflink_bad_escape "a/b%zz".data (by decide) (by decide)

/-- C5 counterexample: with both a kubeconfig path and a context
configured, the constructed argument list starts with the `--context`
pair, not with the `--kubeconfig` pair as claimed. -/
theorem kubectl_flag_order_cex :
    kubectlArgs ctxCfg "/kc".data ["get".data] =
      ["--context".data, "ctx".data, "--kubeconfig".data, "/kc".data, "get".data] ∧
    kubectlArgs ctxCfg "/kc".data ["get".data] ≠
      ["--kubeconfig".data, "/kc".data, "--context".data, "ctx".data, "get".data] := by
  decide

/-- C5 (amended): whenever both a kubeconfig path and a context are
present, the argument list places the `--context <name>` pair before the
`--kubeconfig <path>` pair, followed by the verb and its arguments. -/
theorem kubectl_context_before_kubeconfig (cfg : Config) (kc : Str)
    (args : List Str) (hk : kc ≠ []) (hctx : cfg.kubeconfigContext ≠ []) :
    kubectlArgs cfg kc args =
      "--context".data :: cfg.kubeconfigContext ::
        "--kubeconfig".data :: kc :: args := by
  simp [kubectlArgs, hk, hctx]

/-- Witness for C5 (amended) at a concrete configuration. -/
theorem kubectl_context_before_kubeconfig_witness :
    kubectlArgs ctxCfg "/kc".data ["get".data] =
      "--context".data :: ctxCfg.kubeconfigContext ::
        "--kubeconfig".data :: "/kc".data :: ["get".data] :=
  kubectl_context_before_kubeconfig ctxCfg "/kc".data ["get".data]
    (by decide) (by decide)

/-- C6 counterexample: with both credential fields set, Delete on a stored
id whose single locator is undecodable returns only the invalid-id error;
no configuration-conflict error (wrapped or not) is returned, because
credential resolution is never reached. -/
theorem conflict_delete_invalid_id_cex :
    resourceManifestDelete conflictCfg plainEnv shortD =
      (.error (.list [.msg "invalid resource id: short".data]), []) ∧
    "invalid resource id: short".data ≠
      "determining kubeconfig: ".data ++ conflictMsg ∧
    "invalid resource id: short".data ≠ conflictMsg :=
  ⟨rfl, by decide, by decide⟩

/-- C6 (amended): with both the kubeconfig path and the inline content
non-empty, no subprocess is ever invoked; Create and Update return the
wrapped configuration-conflict error directly, while Read and Delete
return an aggregate in which every decodable locator contributes the
wrapped conflict error and every undecodable locator contributes its
invalid-id error (Read also leaves the identity unchanged). -/
theorem conflict_blocks_all_operations (cfg : Config) (env : Env)
    (d : ResourceData) (hk : cfg.kubeconfig ≠ []) (hc : cfg.kubeconfigContent ≠ []) :
    resourceManifestCreate cfg env d =
      (.error (wrapKubeconfigErr (.msg conflictMsg)), d, []) ∧
    resourceManifestUpdate cfg env d =
      (.error (wrapKubeconfigErr (.msg conflictMsg)), d, []) ∧
    resourceManifestRead cfg env d =
      (match (goSplit ' ' d.id).map conflictLocErr with
       | [] => .ok ()
       | e :: rest => .error (.list (e :: rest)), d, []) ∧
    resourceManifestDelete cfg env d =
      (match (goSplit ' ' d.id).reverse.map conflictLocErr with
       | [] => .ok ()
       | e :: rest => .error (.list (e :: rest)), []) := by
  have hkp := kubeconfigPath_conflict cfg env.tmp hk hc
  refine ⟨?_, ?_, ?_, ?_⟩
  · simp only [resourceManifestCreate, hkp]
  · simp only [resourceManifestUpdate, hkp]
  · unfold resourceManifestRead
    rw [readLoop_conflict cfg env hk hc]
  · unfold resourceManifestDelete
    rw [deleteSeq_conflict cfg env hk hc]

/-- Witness for C6 (amended) at a concrete conflicting configuration. -/
theorem conflict_blocks_all_operations_witness :
    resourceManifestCreate conflictCfg plainEnv readD =
      (.error (wrapKubeconfigErr (.msg conflictMsg)), readD, []) ∧
    resourceManifestUpdate conflictCfg plainEnv readD =
      (.error (wrapKubeconfigErr (.msg conflictMsg)), readD, []) ∧
    resourceManifestRead conflictCfg plainEnv readD =
      (match (goSplit ' ' readD.id).map conflictLocErr with
       | [] => .ok ()
       | e :: rest => .error (.list (e :: rest)), readD, []) ∧
    resourceManifestDelete conflictCfg plainEnv readD =
      (match (goSplit ' ' readD.id).reverse.map conflictLocErr with
       | [] => .ok ()
       | e :: rest => .error (.list (e :: rest)), []) :=
  conflict_blocks_all_operations conflictCfg plainEnv readD
    (by decide) (by decide)

/-- C7: any Create failure leaves the resource data (hence the identity)
unchanged, and in particular a structured get whose parsed items list is
empty makes Create fail with the no-resources-created error. -/
theorem create_failure_leaves_identity (cfg : Config) (env : Env)
    (d : ResourceData) :
    (∀ e, (resourceManifestCreate cfg env d).1 = .error e →
       (resourceManifestCreate cfg env d).2.1 = d) ∧
    (∀ kc out stdout, kubeconfigPath cfg env.tmp = .ok kc →
       env.exec ⟨kubectlArgs cfg kc ["apply".data, "-f".data, "-".data],
         some d.content⟩ = .ok out →
       env.exec ⟨kubectlArgs cfg kc
           ["get".data, "-f".data, "-".data, "-o".data, "json".data],
         some d.content⟩ = .ok stdout →
       env.unmarshalItems stdout = .ok [] →
       (resourceManifestCreate cfg env d).1 =
         .error (.msg "no resources created".data)) := by
  constructor
  · intro e he
    rcases create_id_or_ok cfg env d with h | h
    · exact h
    · rw [h] at he
      exact absurd he (by simp)
  · intro kc out stdout h1 h2 h3 h4
    simp only [resourceManifestCreate, h1, h2, h3, h4, List.length_nil]
    rfl

/-- Witness for C7: an environment whose structured get parses to an empty
items list; Create fails with the no-resources-created error and leaves
the resource data unchanged. -/
theorem create_failure_leaves_identity_witness :
    (resourceManifestCreate emptyCfg emptyItemsEnv freshD).2.1 = freshD ∧
    (resourceManifestCreate emptyCfg emptyItemsEnv freshD).1 =
      .error (.msg "no resources created".data) :=
  ⟨(create_failure_leaves_identity emptyCfg emptyItemsEnv freshD).1
      (.msg "no resources created".data) rfl,
   (create_failure_leaves_identity emptyCfg emptyItemsEnv freshD).2
      [] "x".data "x".data rfl rfl rfl rfl⟩

/-- C8: decoding `apps/v1/namespaces/foo/deployments/bar` yields
kind/name `deployments/bar`, namespace `foo`, and `ok = true`. -/
theorem decode_deployment_example :
    resourceFromSelflink "apps/v1/namespaces/foo/deployments/bar".data =
      ("deployments/bar".data, "foo".data, true) := by decide

/-- C9: Update never changes the resource data (in particular the stored
identity), whether it succeeds or fails, and the only subprocess it may
run is the apply step on the manifest content. -/
theorem update_preserves_identity (cfg : Config) (env : Env) (d : ResourceData) :
    (resourceManifestUpdate cfg env d).2.1 = d ∧
    (resourceManifestUpdate cfg env d).2.2 =
      (match kubeconfigPath cfg env.tmp with
       | .error _ => []
       | .ok kc => [⟨kubectlArgs cfg kc ["apply".data, "-f".data, "-".data],
           some d.content⟩]) := by
  constructor
  · unfold resourceManifestUpdate
    dsimp only
    repeat' split
    all_goals rfl
  · unfold resourceManifestUpdate
    dsimp only
    repeat' split
    all_goals rfl

/-- C10 counterexample: in `namespaces/namespaces` the final segment is
`namespaces`, yet the extracted namespace is `namespaces`, not the empty
string, because the first occurrence (which has a follower) wins. -/
theorem namespace_final_segment_cex :
    (goSplit '/' "namespaces/namespaces".data).getLast? = some "namespaces".data ∧
    (resourceFromSelflink "namespaces/namespaces".data).2.1 = "namespaces".data ∧
    "namespaces".data ≠ ([] : Str) := by decide

/-- C10 (amended): the namespace is the segment following the first
occurrence of `namespaces` that has a following segment; and when
`namespaces` occurs only as the final segment, the namespace is the empty
string rather than an error. -/
theorem namespace_first_occurrence (s : Str) :
    (∀ pre x rest, goSplit '/' s = pre ++ "namespaces".data :: x :: rest →
       "namespaces".data ∉ pre → (resourceFromSelflink s).2.1 = x) ∧
    (∀ pre, goSplit '/' s = pre ++ ["namespaces".data] →
       "namespaces".data ∉ pre → (resourceFromSelflink s).2.1 = []) := by
  constructor
  · intro pre x rest hsplit hpre
    have hlen : ¬ (goSplit '/' s).length < 2 := by
      rw [hsplit]; simp [List.length_append]; omega
    rw [resourceFromSelflink_ns s hlen, hsplit,
      namespaceFromParts_firstNs pre x rest hpre]
  · intro pre hsplit hpre
    by_cases hlen : (goSplit '/' s).length < 2
    · have hres : resourceFromSelflink s = ([], [], false) := by
        simp only [resourceFromSelflink]
        rw [if_pos hlen]
      rw [hres]
    · rw [resourceFromSelflink_ns s hlen, hsplit,
        namespaceFromParts_lastNs pre hpre]

/-- Witness for C10 (amended): first-occurrence extraction on
`a/namespaces/foo/x` and empty namespace on `a/namespaces`. -/
theorem namespace_first_occurrence_witness :
    (resourceFromSelflink "a/namespaces/foo/x".data).2.1 = "foo".data ∧
    (resourceFromSelflink "a/namespaces".data).2.1 = [] :=
  ⟨(namespace_first_occurrence "a/namespaces/foo/x".data).1
      ["a".data] "foo".data ["x".data] (by decide) (by decide),
   (namespace_first_occurrence "a/namespaces".data).2
      ["a".data] (by decide) (by decide)⟩

end K8sProvider
